import Mathlib

/-!
Shallow embedding of the streaming chat controller of `src/components/chat.tsx`
(the local `useChat` hook: `getStreamedResponse`, the function-call loop,
`append`, `reload`, `stop`).

Modelling conventions:
- SWR `mutate(xs, false)` is a full-sequence replace of the message store; a
  run is recorded as the ordered list of store states produced by the replaces.
- `fetch` and the byte stream are external: a `FetchResult` value supplies the
  outcome of the HTTP exchange, with the body's chunks already decoded to
  strings (`decodeAIStreamChunk` is plain UTF-8 decoding).
- `JSON.parse(result).function_call` is external; it is supplied as an oracle
  `parse : String → Option FunctionCall`, `none` modelling a parse failure
  (`JSON.parse` throwing).
- The abort controller is modelled by a predicate `cancelled : Nat → Bool`:
  `cancelled i = true` means `abortControllerRef.current === null` holds at the
  check performed after processing chunk `i`.
- Thrown JS errors are modelled by the outcome constructors of `GsrOutcome`.
-/

namespace Chat

/-- Message roles, from the `Message` type used by the hook. -/
inductive Role where
  | user
  | assistant
  | system
  | function
deriving DecidableEq

/-- Structured function call: `ChatCompletionRequestMessageFunctionCall`,
with `arguments` still a string (parsed later by the handler). -/
structure FunctionCall where
  name : String
  arguments : String
deriving DecidableEq

/-- The dynamic shape of the `function_call` field of a message: absent
(`undef`), a raw accumulating string while the stream is in progress
(`raw`), or the structured value after the final parse (`parsed`). -/
inductive FunctionCallValue where
  | undef
  | raw (s : String)
  | parsed (fc : FunctionCall)
deriving DecidableEq

/-- A chat message. `id` is `Option String` because `CreateMessage` allows the
field to be absent; `createdAt` is a timestamp modelled as `Nat`. -/
structure Message where
  id : Option String
  role : Role
  content : String
  name : Option String := none
  function_call : FunctionCallValue := FunctionCallValue.undef
  createdAt : Option Nat := none
deriving DecidableEq

/-- The `OpenAIChatRequest` envelope: message sequence plus optional
`functions` schemas and `function_call` directive (both opaque to the
controller, modelled as strings). -/
structure OpenAIChatRequest where
  messages : List Message
  functions : Option (List String) := none
  function_call : Option String := none
deriving DecidableEq

/-- Model of JavaScript `String.prototype.startsWith`. -/
def jsStartsWith (s pre : String) : Bool :=
  List.isPrefixOf pre.data s.data

/-- The fixed literal prefix marking a function-call envelope,
`result.startsWith('\x7b"function_call":')` in the source. -/
def functionCallMarker : String := "\x7b\"function_call\":"

/-- Outcome of the external HTTP exchange: `netError` models `fetch`
rejecting; `response ok text body` models a `Response` with `res.ok`,
`res.text()` and `res.body` (`none` when the body is absent, otherwise the
decoded chunk sequence delivered by the reader). -/
inductive FetchResult where
  | netError
  | response (ok : Bool) (text : String) (body : Option (List String))
deriving DecidableEq

/-- Outcome of one `getStreamedResponse` call. The error constructors model
the thrown errors (fetch rejection, non-ok status, empty body, JSON parse
failure); `success m` models a normal return, `m` being the final value of
the local `responseMessage` variable (`none` when it was never assigned),
which is both the return value and the argument passed to `onFinish`. -/
inductive GsrOutcome where
  | fetchFailed
  | badStatus (msg : String)
  | emptyBody
  | parseFailed
  | success (finalMessage : Option Message)
deriving DecidableEq

/-- Whether an outcome is a thrown error (surfaced to the caller via
`onError` and a rethrow in the surrounding `catch`). -/
def GsrOutcome.isError : GsrOutcome → Bool
  | .success _ => false
  | _ => true

/-- The evolving assistant message built for the accumulated text `result`
(lines 360–376 of the source): if the text starts with the function-call
marker the message is kept in the pending representation (`content` empty,
`function_call` the raw string), otherwise the whole text is plain content. -/
def mkResponseMessage (replyId : String) (createdAt : Nat) (result : String) : Message :=
  if jsStartsWith result functionCallMarker then
    { id := some replyId, role := Role.assistant, content := "", name := none,
      function_call := FunctionCallValue.raw result, createdAt := some createdAt }
  else
    { id := some replyId, role := Role.assistant, content := result, name := none,
      function_call := FunctionCallValue.undef, createdAt := some createdAt }

/-- The per-chunk read loop (lines 352–392): each delivered chunk is appended
to the accumulator, the evolving message is rebuilt, the store is replaced
with `base ++ [message]`, and only then is the abort flag consulted; if it is
set, reading stops. Returns the list of store states produced, the final
accumulated text, and the final value of `responseMessage`. -/
def processChunksAux (base : List Message) (replyId : String) (createdAt : Nat)
    (cancelled : Nat → Bool) :
    List String → Nat → String → Option Message →
      List (List Message) × String × Option Message
  | [], _, result, respMsg => ([], result, respMsg)
  | c :: cs, i, result, _ =>
    let result' := result ++ c
    let m := mkResponseMessage replyId createdAt result'
    if cancelled i then
      ([base ++ [m]], result', some m)
    else
      let rest := processChunksAux base replyId createdAt cancelled cs (i + 1) result' (some m)
      ((base ++ [m]) :: rest.1, rest.2)

/-- The read loop started on a fresh accumulator and an unassigned
`responseMessage`. -/
def processChunks (base : List Message) (replyId : String) (createdAt : Nat)
    (cancelled : Nat → Bool) (chunks : List String) :
    List (List Message) × String × Option Message :=
  processChunksAux base replyId createdAt cancelled chunks 0 "" none

/-- Shape of the pending-function-call message built mid-stream. -/
def pendingMessage (replyId : String) (createdAt : Nat) (r : String) : Message :=
  { id := some replyId, role := Role.assistant, content := "", name := none,
    function_call := FunctionCallValue.raw r, createdAt := some createdAt }

/-- Shape of the plain-content message built mid-stream. -/
def plainMessage (replyId : String) (createdAt : Nat) (r : String) : Message :=
  { id := some replyId, role := Role.assistant, content := r, name := none,
    function_call := FunctionCallValue.undef, createdAt := some createdAt }

/-- Shape of the message written by the final parse-and-replace. -/
def parsedMessage (replyId : String) (createdAt : Nat) (fc : FunctionCall) : Message :=
  { id := some replyId, role := Role.assistant, content := "", name := none,
    function_call := FunctionCallValue.parsed fc, createdAt := some createdAt }

/-- One `getStreamedResponse` call (lines 297–417). `prev` is the snapshot
`previousMessages` taken before the optimistic update, `req` the submitted
envelope. Returns the ordered list of store replaces performed and the
outcome. Mirrors the source: optimistic replace; on fetch rejection or
non-ok status, a rollback replace to `prev` and a thrown error (the non-ok
message being the body text or the fixed default); on an absent body a
thrown error with no rollback; otherwise the chunk loop followed, when the
accumulated text bears the function-call marker, by the final JSON parse
(throwing on failure) and the replace with the structured message. -/
def getStreamedResponse (parse : String → Option FunctionCall) (replyId : String)
    (createdAt : Nat) (cancelled : Nat → Bool) (prev : List Message)
    (req : OpenAIChatRequest) (fetch : FetchResult) :
    List (List Message) × GsrOutcome :=
  match fetch with
  | .netError => ([req.messages, prev], .fetchFailed)
  | .response ok text body =>
    if ok then
      match body with
      | none => ([req.messages], .emptyBody)
      | some chunks =>
        let pc := processChunks req.messages replyId createdAt cancelled chunks
        if jsStartsWith pc.2.1 functionCallMarker then
          match parse pc.2.1 with
          | some fc =>
            (req.messages :: pc.1 ++ [req.messages ++ [parsedMessage replyId createdAt fc]],
             .success pc.2.2)
          | none => (req.messages :: pc.1, .parseFailed)
        else
          (req.messages :: pc.1, .success pc.2.2)
    else
      ([req.messages, prev],
       .badStatus (if text = "" then "Failed to fetch the chat response." else text))

/-- External data consumed by one loop iteration: the fresh `nanoid` reply id
and `new Date()` timestamp generated for the response message, the abort-flag
observations, and the outcome of the HTTP exchange. -/
structure IterationEnv where
  replyId : String
  createdAt : Nat
  cancelled : Nat → Bool
  fetch : FetchResult

/-- A function-call handler collaborator, as invoked by the loop:
`functionCallHandler(functionCall, chatRequest)` returning the next
envelope. -/
def Handler : Type :=
  FunctionCall → OpenAIChatRequest → OpenAIChatRequest

/-- What the `while (true)` loop body (lines 420–438) decides after a
successful `getStreamedResponse`, given the store contents `store`
(`messagesRef.current`): reading the last message and halting when its
`function_call` is absent or still a string, otherwise continuing — with the
handler's returned envelope when a handler is configured, and with the
unchanged current envelope when none is. `none` models the TypeError of
indexing an empty store. -/
inductive LoopDecision where
  | halt
  | continueWith (req : OpenAIChatRequest)

def loopDecision (handler : Option Handler) (req : OpenAIChatRequest)
    (store : List Message) : Option LoopDecision :=
  match store.getLast? with
  | none => none
  | some latest =>
    match latest.function_call with
    | .undef => some LoopDecision.halt
    | .raw _ => some LoopDecision.halt
    | .parsed fc =>
      match handler with
      | some h => some (LoopDecision.continueWith (h fc { req with messages := store }))
      | none => some (LoopDecision.continueWith req)

/-- Outcome of the whole mutation routine (the `trigger` callback): a normal
return of the last message's content, a propagated thrown error, `pending`
when the supplied list of iteration environments is exhausted while the loop
still wants another request (the loop has not terminated within that many
exchanges), or `crashed` for the empty-store TypeError. -/
inductive LoopOutcome where
  | finished (ret : String)
  | errored (e : GsrOutcome)
  | pending
  | crashed
deriving DecidableEq

/-- Trace of a run of the function-call loop: the envelopes submitted to
`getStreamedResponse` in order, every store replace performed, the handler
invocations `(structuredCall, envelopeArgument)` in order, and the outcome. -/
structure LoopResult where
  requests : List OpenAIChatRequest
  states : List (List Message)
  handlerCalls : List (FunctionCall × OpenAIChatRequest)
  outcome : LoopOutcome

/-- The function-call loop (lines 419–443): submit the current envelope, read
the latest stored message, break when it carries no structured function call
(returning its content), otherwise hand the structured call to the handler
when one is configured and loop on the returned envelope — or loop on the
same envelope when no handler is configured. Errors thrown inside
`getStreamedResponse` abort the loop and propagate. Recursion is fuelled by
the list of per-iteration environments. -/
def chatLoop (parse : String → Option FunctionCall) (handler : Option Handler) :
    List IterationEnv → OpenAIChatRequest → List Message → LoopResult
  | [], _, _ => ⟨[], [], [], LoopOutcome.pending⟩
  | env :: rest, req, store =>
    let gsr := getStreamedResponse parse env.replyId env.createdAt env.cancelled store req env.fetch
    let store' := gsr.1.getLastD store
    match gsr.2 with
    | .success _ =>
      match store'.getLast? with
      | none => ⟨[req], gsr.1, [], LoopOutcome.crashed⟩
      | some latest =>
        match latest.function_call with
        | .undef => ⟨[req], gsr.1, [], LoopOutcome.finished latest.content⟩
        | .raw _ => ⟨[req], gsr.1, [], LoopOutcome.finished latest.content⟩
        | .parsed fc =>
          match handler with
          | some h =>
            let r := chatLoop parse handler rest (h fc { req with messages := store' }) store'
            ⟨req :: r.requests, gsr.1 ++ r.states,
             (fc, { req with messages := store' }) :: r.handlerCalls, r.outcome⟩
          | none =>
            let r := chatLoop parse handler rest req store'
            ⟨req :: r.requests, gsr.1 ++ r.states, r.handlerCalls, r.outcome⟩
    | e => ⟨[req], gsr.1, [], LoopOutcome.errored e⟩

/-- Model of the JavaScript falsiness test `!message.id`: true when the id is
absent or the empty string. -/
def isFalsyId : Option String → Bool
  | none => true
  | some s => s = ""

/-- The `append` operation (lines 464–479): assign the fresh `nanoid` when
`!message.id`, then build the envelope from the current stored sequence with
the message appended plus the optional fields, and submit it. Returns the
(possibly id-assigned) message and the submitted envelope. -/
def append (current : List Message) (freshId : String) (message : Message)
    (fns : Option (List String)) (fcDirective : Option String) :
    Message × OpenAIChatRequest :=
  let message' :=
    if isFalsyId message.id then { message with id := some freshId } else message
  (message',
   { messages := current ++ [message'], functions := fns, function_call := fcDirective })

/-- The `reload` operation (lines 481–503): `none` (no submission) on an
empty sequence; otherwise submit the sequence with the last message dropped
when that message's role is `assistant`, and the unchanged sequence
otherwise. -/
def reload (current : List Message) (fns : Option (List String))
    (fcDirective : Option String) : Option OpenAIChatRequest :=
  match current.getLast? with
  | none => none
  | some lastMessage =>
    if lastMessage.role = Role.assistant then
      some { messages := current.dropLast, functions := fns, function_call := fcDirective }
    else
      some { messages := current, functions := fns, function_call := fcDirective }

/-- Running accumulations of a chunk sequence on top of `acc`: the value of
the `result` accumulator after each chunk. -/
def runningConcats (acc : String) : List String → List String
  | [] => []
  | c :: cs => (acc ++ c) :: runningConcats (acc ++ c) cs

/-- Concrete user message used by the concrete instances below. -/
def demoUserMsg : Message :=
  { id := some "u1", role := Role.user, content := "What time is it?" }

/-- Concrete submitted envelope holding just the user message. -/
def demoReq : OpenAIChatRequest := { messages := [demoUserMsg] }

/-- The exact stream text of the function-call round-trip scenario:
`{"function_call":{"name":"get_current_time","arguments":"{}"}}`. -/
def fcText : String :=
  "\x7b\"function_call\":\x7b\"name\":\"get_current_time\",\"arguments\":\"\x7b\x7d\"\x7d\x7d"

/-- The structured value `JSON.parse` yields for `fcText`, projected to its
`function_call` field. -/
def timeCall : FunctionCall := { name := "get_current_time", arguments := "\x7b\x7d" }

/-- Concrete parse oracle agreeing with `JSON.parse(·).function_call` on the
round-trip text and failing elsewhere. -/
def demoParse : String → Option FunctionCall :=
  fun s => if s = fcText then some timeCall else none

/-- Concrete handler in the shape of the repository's `get_current_time`
handler: it returns the envelope extended with a `function`-role result
message. -/
def demoHandler : Handler :=
  fun fc req =>
    { messages := req.messages ++
        [{ id := some "f1", role := Role.function,
           content := "\x7b\"time\":\"12:00:00 PM\"\x7d", name := some fc.name }] }

/-- Abort flag that is never observed set. -/
def noCancel : Nat → Bool := fun _ => false

/-- Iteration whose exchange streams exactly the function-call text. -/
def fcEnv : IterationEnv :=
  { replyId := "r1", createdAt := 0, cancelled := noCancel,
    fetch := FetchResult.response true "" (some [fcText]) }

/-- Iteration whose exchange streams a plain-text answer. -/
def plainEnv : IterationEnv :=
  { replyId := "r2", createdAt := 1, cancelled := noCancel,
    fetch := FetchResult.response true "" (some ["It is noon."]) }

/-- Store contents after a completed function-call stream: the user message
followed by the assistant message carrying the structured call. -/
def demoStoreFC : List Message := [demoUserMsg, parsedMessage "r1" 0 timeCall]

/-- Message submitted with an explicitly supplied empty-string id. -/
def emptyIdMsg : Message := { id := some "", role := Role.user, content := "hi" }

/-- Message submitted with no id. -/
def noIdMsg : Message := { id := none, role := Role.user, content := "hi" }

/-- Message submitted with an explicitly supplied non-empty id. -/
def keptIdMsg : Message := { id := some "keep", role := Role.user, content := "hi" }

/-- Characterization of the uncancelled read loop: it produces one store
replace per chunk, each of the form `base ++ [evolving message]` built from
the running accumulation; the final accumulator is the last running
accumulation and the final `responseMessage` the message built from it
(untouched when there is no chunk). -/
theorem processChunksAux_no_cancel (base : List Message) (replyId : String) (createdAt : Nat)
    (chunks : List String) (n : Nat) (acc : String) (rm : Option Message) :
    processChunksAux base replyId createdAt (fun _ => false) chunks n acc rm =
      ((runningConcats acc chunks).map (fun r => base ++ [mkResponseMessage replyId createdAt r]),
       (runningConcats acc chunks).getLastD acc,
       ((runningConcats acc chunks).getLast?.map
         (fun r => some (mkResponseMessage replyId createdAt r))).getD rm) := by
  induction chunks generalizing n acc rm with
  | nil => simp [processChunksAux, runningConcats]
  | cons c cs ih =>
    simp only [processChunksAux, runningConcats]
    rw [if_neg (by simp)]
    rw [ih]
    cases hrc : runningConcats (acc ++ c) cs with
    | nil => simp [hrc]
    | cons x xs => simp [hrc, List.getLast?_cons]

/-- With the abort flag observed set at the check following chunk `n + j`,
the read loop performs at most `j + 1` store replaces from chunk `n`
onward. -/
theorem processChunksAux_cancel_length (base : List Message) (replyId : String)
    (createdAt : Nat) (cancelled : Nat → Bool) (chunks : List String) (n : Nat)
    (acc : String) (rm : Option Message) (j : Nat) (hj : cancelled (n + j) = true) :
    (processChunksAux base replyId createdAt cancelled chunks n acc rm).1.length ≤ j + 1 := by
  induction chunks generalizing n acc rm j with
  | nil => simp [processChunksAux]
  | cons c cs ih =>
    simp only [processChunksAux]
    by_cases hc : cancelled n = true
    · simp [hc]
    · rw [if_neg hc]
      rcases j with _ | j
      · rw [Nat.add_zero] at hj
        exact absurd hj hc
      · simp only [List.length_cons]
        have hj' : cancelled ((n + 1) + j) = true := by
          have h1 : (n + 1) + j = n + (j + 1) := by omega
          rw [h1]
          exact hj
        have h2 := ih (n + 1) (acc ++ c) (some (mkResponseMessage replyId createdAt (acc ++ c))) j hj'
        omega

/-- C1: for every submission that fails with a transport failure (the HTTP
exchange throws) or a non-success response status, the message store is
rolled back to the snapshot taken before the optimistic update — the exact
pre-submission sequence `prev`, not `prev` plus the appended user message —
before the error is surfaced to the caller: the replace trace is exactly
the optimistic replace followed by the rollback replace to `prev`, and the
outcome is a thrown error. -/
theorem c1_rollback_on_failure (parse : String → Option FunctionCall) (replyId : String)
    (createdAt : Nat) (cancelled : Nat → Bool) (prev : List Message)
    (req : OpenAIChatRequest) (fetch : FetchResult)
    (h : fetch = FetchResult.netError ∨
      ∃ text body, fetch = FetchResult.response false text body) :
    (getStreamedResponse parse replyId createdAt cancelled prev req fetch).1 =
      [req.messages, prev] ∧
    GsrOutcome.isError
      (getStreamedResponse parse replyId createdAt cancelled prev req fetch).2 = true := by
  rcases h with h | ⟨text, body, h⟩ <;> subst h <;>
    simp [getStreamedResponse, GsrOutcome.isError]

/-- Witness for C1 at a transport failure on a one-message submission. -/
theorem c1_rollback_on_failure_witness :
    (getStreamedResponse demoParse "r1" 0 noCancel [] demoReq FetchResult.netError).1 =
      [demoReq.messages, []] ∧
    GsrOutcome.isError
      (getStreamedResponse demoParse "r1" 0 noCancel [] demoReq FetchResult.netError).2 = true :=
  c1_rollback_on_failure demoParse "r1" 0 noCancel [] demoReq FetchResult.netError (Or.inl rfl)

/-- C2 (code bug): with no handler configured and the latest stored message
carrying a structured function call, the loop body does NOT terminate: it
decides to continue with the unchanged envelope, so a further request is
issued; fuelled with two identical function-call exchanges, the loop submits
the same envelope twice and is still unfinished. The specified behaviour —
terminate immediately and surface the structured call — does not hold. -/
theorem c2_no_handler_keeps_requesting :
    loopDecision none demoReq demoStoreFC = some (LoopDecision.continueWith demoReq) ∧
    (chatLoop demoParse none [fcEnv, fcEnv] demoReq []).requests = [demoReq, demoReq] ∧
    (chatLoop demoParse none [fcEnv, fcEnv] demoReq []).outcome = LoopOutcome.pending := by
  refine ⟨rfl, rfl, rfl⟩

/-- C3 counterexample: a success response with an absent body throws without
any rollback replace — the final store state is the optimistic
`req.messages`, which differs from the pre-submission snapshot `[]`. -/
theorem c3_no_rollback_on_empty_body :
    (getStreamedResponse demoParse "r1" 0 noCancel [] demoReq
        (FetchResult.response true "" none)).2 = GsrOutcome.emptyBody ∧
    (getStreamedResponse demoParse "r1" 0 noCancel [] demoReq
        (FetchResult.response true "" none)).1.getLast? = some [demoUserMsg] ∧
    [demoUserMsg] ≠ ([] : List Message) := by
  refine ⟨rfl, rfl, by decide⟩

/-- C3 amended: for every submission whose response has a success status but
no body, the submission fails fatally and the error is surfaced to the
caller, but the store is NOT rolled back: it is left at the optimistic
sequence (the envelope's messages). -/
theorem c3_amended_empty_body (parse : String → Option FunctionCall) (replyId : String)
    (createdAt : Nat) (cancelled : Nat → Bool) (prev : List Message)
    (req : OpenAIChatRequest) (text : String) :
    getStreamedResponse parse replyId createdAt cancelled prev req
        (FetchResult.response true text none) =
      ([req.messages], GsrOutcome.emptyBody) := by
  simp [getStreamedResponse]

/-- C10: for a success response whose body stream delivers zero chunks, no
assistant message is ever appended to the store (the only replace is the
optimistic one), and the final value of the local `responseMessage` variable
— the routine's return value and the argument passed to `onFinish` — is
`none` (JavaScript `undefined`), not a message. -/
theorem c10_zero_chunk_stream (parse : String → Option FunctionCall) (replyId : String)
    (createdAt : Nat) (cancelled : Nat → Bool) (prev : List Message)
    (req : OpenAIChatRequest) (text : String) :
    getStreamedResponse parse replyId createdAt cancelled prev req
        (FetchResult.response true text (some [])) =
      ([req.messages], GsrOutcome.success none) := by
  have h0 : jsStartsWith "" functionCallMarker = false := by decide
  simp [getStreamedResponse, processChunks, processChunksAux, h0]

/-- C8: for every nonempty current message sequence, `reload` submits a
request built from the sequence with the last message removed when that last
message's role is `assistant`, and submits the sequence unchanged when the
last message's role is not `assistant`. -/
theorem c8_reload_semantics (current : List Message) (fns : Option (List String))
    (fcDirective : Option String) (lastMsg : Message)
    (h : current.getLast? = some lastMsg) :
    reload current fns fcDirective =
      some { messages := if lastMsg.role = Role.assistant then current.dropLast else current,
             functions := fns, function_call := fcDirective } := by
  unfold reload
  rw [h]
  by_cases hr : lastMsg.role = Role.assistant <;> simp [hr]

/-- Witness for C8 on a sequence ending in an assistant message and on a
sequence ending in a user message. -/
theorem c8_reload_semantics_witness :
    reload [demoUserMsg, plainMessage "r0" 0 "Hello!"] none none =
      some { messages := if (plainMessage "r0" 0 "Hello!").role = Role.assistant then
                 ([demoUserMsg, plainMessage "r0" 0 "Hello!"] : List Message).dropLast
               else [demoUserMsg, plainMessage "r0" 0 "Hello!"],
             functions := none, function_call := none } ∧
    reload [demoUserMsg] none none =
      some { messages := if demoUserMsg.role = Role.assistant then
                 ([demoUserMsg] : List Message).dropLast
               else [demoUserMsg],
             functions := none, function_call := none } :=
  ⟨c8_reload_semantics [demoUserMsg, plainMessage "r0" 0 "Hello!"] none none
      (plainMessage "r0" 0 "Hello!") rfl,
   c8_reload_semantics [demoUserMsg] none none demoUserMsg rfl⟩

/-- C9 counterexample: a message submitted to `append` with the explicitly
supplied id `""` does not keep that id — the JavaScript falsiness test
`!message.id` treats it as missing and a fresh id is assigned, in the
message and in the submitted envelope alike. -/
theorem c9_empty_id_not_preserved :
    (append [] "fresh1" emptyIdMsg none none).1.id = some "fresh1" ∧
    (append [] "fresh1" emptyIdMsg none none).2.messages =
      [{ emptyIdMsg with id := some "fresh1" }] ∧
    some "fresh1" ≠ emptyIdMsg.id := by
  refine ⟨rfl, rfl, by decide⟩

/-- C9 amended: `append` assigns the fresh id exactly when the message's id
is absent or the empty string — and then, provided the fresh id does not
already occur in the conversation, the assigned id is unique within it; an
explicitly supplied non-empty id leaves the message untouched; and the
submitted envelope's messages equal the current stored sequence with the
(possibly id-assigned) message appended at the end. -/
theorem c9_amended_append_ids (current : List Message) (freshId s : String)
    (message : Message) (fns : Option (List String)) (fcDirective : Option String)
    (hfresh : some freshId ∉ current.map Message.id) :
    ((message.id = none ∨ message.id = some "") →
      (append current freshId message fns fcDirective).1.id = some freshId ∧
      (append current freshId message fns fcDirective).1.id ∉ current.map Message.id) ∧
    (message.id = some s → s ≠ "" →
      (append current freshId message fns fcDirective).1 = message) ∧
    (append current freshId message fns fcDirective).2.messages =
      current ++ [(append current freshId message fns fcDirective).1] := by
  refine ⟨?_, ?_, rfl⟩
  · intro h
    have hf : isFalsyId message.id = true := by
      rcases h with h | h <;> simp [isFalsyId, h]
    constructor
    · simp [append, hf]
    · simp only [append, hf, if_pos]
      exact hfresh
  · intro hid hs
    have hf : isFalsyId message.id = false := by
      simp [isFalsyId, hid, hs]
    simp [append, hf]

/-- Witness for C9 amended: an absent id receives the fresh id; an explicit
non-empty id is preserved. -/
theorem c9_amended_append_ids_witness :
    (append [demoUserMsg] "fresh2" noIdMsg none none).1.id = some "fresh2" ∧
    (append [demoUserMsg] "fresh2" keptIdMsg none none).1 = keptIdMsg := by
  constructor
  · exact ((c9_amended_append_ids [demoUserMsg] "fresh2" "x" noIdMsg none none
      (by decide)).1 (Or.inl rfl)).1
  · exact (c9_amended_append_ids [demoUserMsg] "fresh2" "keep" keptIdMsg none none
      (by decide)).2.1 rfl (by decide)

/-- C4 counterexample: with cancellation already in effect before the first
chunk is processed (the abort flag reads cancelled at every check), the
chunk that arrives after the cancellation point is still decoded and a store
replace built from it still occurs — the claim that the handle is consulted
before each chunk so that no such replace happens is false. -/
theorem c4_replace_after_cancellation :
    (processChunks [] "r1" 0 (fun _ => true) ["late"]).1 = [[plainMessage "r1" 0 "late"]] ∧
    (processChunks [] "r1" 0 (fun _ => true) ["late"]).1 ≠ [] := by
  refine ⟨by decide, by decide⟩

/-- C4 amended: the cancellation handle is consulted after each chunk is
processed, so the chunk in flight at the cancellation point is still applied:
once the flag is observed set at the check following chunk `j`, at most
`j + 1` chunk replaces occur in total; and the routine then resolves without
throwing — when the (possibly truncated) accumulated text is not a pending
function-call envelope, the outcome is a normal success carrying whatever
partial message existed, with no rollback. -/
theorem c4_amended_cancellation (parse : String → Option FunctionCall) (replyId : String)
    (createdAt : Nat) (cancelled : Nat → Bool) (prev : List Message)
    (req : OpenAIChatRequest) (text : String) (chunks : List String) (j : Nat)
    (hj : cancelled j = true)
    (hplain : jsStartsWith
      (processChunks req.messages replyId createdAt cancelled chunks).2.1
      functionCallMarker = false) :
    (processChunks req.messages replyId createdAt cancelled chunks).1.length ≤ j + 1 ∧
    getStreamedResponse parse replyId createdAt cancelled prev req
        (FetchResult.response true text (some chunks)) =
      (req.messages :: (processChunks req.messages replyId createdAt cancelled chunks).1,
       GsrOutcome.success
         (processChunks req.messages replyId createdAt cancelled chunks).2.2) := by
  constructor
  · exact processChunksAux_cancel_length req.messages replyId createdAt cancelled chunks
      0 "" none j (by simpa using hj)
  · simp [getStreamedResponse, hplain]

/-- Witness for C4 amended: cancellation observed at the check after the
second chunk stops the three-chunk stream at two replaces and the routine
succeeds. -/
theorem c4_amended_cancellation_witness :
    (processChunks demoReq.messages "r1" 0 (fun i => decide (1 ≤ i))
        ["ab", "cd", "ef"]).1.length ≤ 2 ∧
    getStreamedResponse demoParse "r1" 0 (fun i => decide (1 ≤ i)) [] demoReq
        (FetchResult.response true "" (some ["ab", "cd", "ef"])) =
      (demoReq.messages :: (processChunks demoReq.messages "r1" 0 (fun i => decide (1 ≤ i))
          ["ab", "cd", "ef"]).1,
       GsrOutcome.success
         (processChunks demoReq.messages "r1" 0 (fun i => decide (1 ≤ i))
           ["ab", "cd", "ef"]).2.2) :=
  c4_amended_cancellation demoParse "r1" 0 (fun i => decide (1 ≤ i)) [] demoReq ""
    ["ab", "cd", "ef"] 1 (by decide) (by decide)

/-- C7: for every chunk sequence none of whose running accumulations matches
the function-call marker, each per-chunk store state is the base sequence
followed by one assistant message whose content is the concatenation of the
chunks decoded so far and whose id is the single stable reply id; the final
accumulated text is the full concatenation (the last running
accumulation). -/
theorem c7_plain_accumulation (base : List Message) (replyId : String) (createdAt : Nat)
    (chunks : List String)
    (h : ∀ r ∈ runningConcats "" chunks, jsStartsWith r functionCallMarker = false) :
    (processChunks base replyId createdAt noCancel chunks).1 =
      (runningConcats "" chunks).map (fun r => base ++ [plainMessage replyId createdAt r]) ∧
    (processChunks base replyId createdAt noCancel chunks).2.1 =
      (runningConcats "" chunks).getLastD "" := by
  have key := processChunksAux_no_cancel base replyId createdAt chunks 0 "" none
  constructor
  · show (processChunksAux base replyId createdAt (fun _ => false) chunks 0 "" none).1 = _
    rw [key]
    apply List.map_congr_left
    intro r hr
    simp [mkResponseMessage, plainMessage, h r hr]
  · show (processChunksAux base replyId createdAt (fun _ => false) chunks 0 "" none).2.1 = _
    rw [key]

/-- Witness for C7 on the chunks "Hel", "lo wor", "ld": three replaces, one
stable id, contents "Hel", "Hello wor", "Hello world", and final accumulated
text "Hello world". -/
theorem c7_plain_accumulation_witness :
    (processChunks [] "r1" 0 noCancel ["Hel", "lo wor", "ld"]).1 =
      [[plainMessage "r1" 0 "Hel"], [plainMessage "r1" 0 "Hello wor"],
       [plainMessage "r1" 0 "Hello world"]] ∧
    (processChunks [] "r1" 0 noCancel ["Hel", "lo wor", "ld"]).2.1 = "Hello world" := by
  have h := c7_plain_accumulation [] "r1" 0 ["Hel", "lo wor", "ld"] (by decide)
  exact ⟨by rw [h.1]; rfl, by rw [h.2]; rfl⟩

/-- C5: for every stream whose accumulated text matches the function-call
marker, any accumulated text matching the marker yields the in-progress
assistant message with empty content and `function_call` holding the raw
accumulated string; the per-chunk replaces are exactly those built from the
running accumulations; and when the stream ends the full text is handed to
the JSON parse — on success the pending string is replaced by a final store
replace carrying the structured value, and on parse failure the submission
ends with the fatal `parseFailed` error (no retry construct exists: the
outcome is terminal for this request). -/
theorem c5_function_call_pending_then_parsed (parse : String → Option FunctionCall)
    (replyId : String) (createdAt : Nat) (prev : List Message) (req : OpenAIChatRequest)
    (text r : String) (chunks : List String)
    (hfull : jsStartsWith ((runningConcats "" chunks).getLastD "") functionCallMarker = true)
    (hr : jsStartsWith r functionCallMarker = true) :
    mkResponseMessage replyId createdAt r = pendingMessage replyId createdAt r ∧
    (processChunks req.messages replyId createdAt noCancel chunks).1 =
      (runningConcats "" chunks).map
        (fun s => req.messages ++ [mkResponseMessage replyId createdAt s]) ∧
    getStreamedResponse parse replyId createdAt noCancel prev req
        (FetchResult.response true text (some chunks)) =
      (match parse ((runningConcats "" chunks).getLastD "") with
       | some fc =>
         (req.messages ::
            (processChunks req.messages replyId createdAt noCancel chunks).1 ++
              [req.messages ++ [parsedMessage replyId createdAt fc]],
          GsrOutcome.success
            (processChunks req.messages replyId createdAt noCancel chunks).2.2)
       | none =>
         (req.messages ::
            (processChunks req.messages replyId createdAt noCancel chunks).1,
          GsrOutcome.parseFailed)) := by
  have key := processChunksAux_no_cancel req.messages replyId createdAt chunks 0 "" none
  have hres : (processChunks req.messages replyId createdAt noCancel chunks).2.1 =
      (runningConcats "" chunks).getLastD "" := by
    show (processChunksAux req.messages replyId createdAt (fun _ => false)
        chunks 0 "" none).2.1 = _
    rw [key]
  refine ⟨by simp [mkResponseMessage, pendingMessage, hr], ?_, ?_⟩
  · show (processChunksAux req.messages replyId createdAt (fun _ => false)
        chunks 0 "" none).1 = _
    rw [key]
  · simp only [getStreamedResponse, hres, hfull]
    cases hp : parse ((runningConcats "" chunks).getLastD "") <;> simp [hp]

/-- Witness for C5 on the single-chunk function-call stream: the mid-stream
replace holds the pending raw string with empty content, the end-of-stream
parse replaces it by the structured value, and the pending representation of
the raw text is as claimed. -/
theorem c5_function_call_pending_then_parsed_witness :
    getStreamedResponse demoParse "r1" 0 noCancel [] demoReq
        (FetchResult.response true "" (some [fcText])) =
      ([[demoUserMsg], [demoUserMsg, pendingMessage "r1" 0 fcText],
        [demoUserMsg, parsedMessage "r1" 0 timeCall]],
       GsrOutcome.success (some (pendingMessage "r1" 0 fcText))) ∧
    mkResponseMessage "r1" 0 fcText = pendingMessage "r1" 0 fcText := by
  have h := c5_function_call_pending_then_parsed demoParse "r1" 0 [] demoReq "" fcText
    [fcText] (by decide) (by decide)
  refine ⟨?_, h.1⟩
  rw [h.2.2]
  rfl

/-- C6: for a stream yielding exactly the text
`{"function_call":{"name":"get_current_time","arguments":"{}"}}` (given that
`JSON.parse` maps that text to the structured value), the terminal message of
the first exchange carries `function_call` equal to the structured
`{name, arguments}` value; with a handler configured the handler is invoked
exactly once, with that structured value and the envelope holding the latest
messages; the loop submits the handler's returned envelope as the next
request; and a following plain-text exchange terminates the loop with that
text. -/
theorem c6_function_call_round_trip (parse : String → Option FunctionCall) (h : Handler)
    (hp : parse fcText = some timeCall) :
    chatLoop parse (some h) [fcEnv, plainEnv] demoReq [] =
      { requests := [demoReq, h timeCall { demoReq with messages := demoStoreFC }],
        states := [[demoUserMsg],
                   [demoUserMsg, pendingMessage "r1" 0 fcText],
                   demoStoreFC,
                   (h timeCall { demoReq with messages := demoStoreFC }).messages,
                   (h timeCall { demoReq with messages := demoStoreFC }).messages ++
                     [plainMessage "r2" 1 "It is noon."]],
        handlerCalls := [(timeCall, { demoReq with messages := demoStoreFC })],
        outcome := LoopOutcome.finished "It is noon." } := by
  have hpc1 : processChunks demoReq.messages "r1" 0 noCancel [fcText] =
      ([[demoUserMsg, pendingMessage "r1" 0 fcText]], fcText,
       some (pendingMessage "r1" 0 fcText)) := by decide
  have hm1 : jsStartsWith fcText functionCallMarker = true := by decide
  have g1 : getStreamedResponse parse "r1" 0 noCancel [] demoReq
      (FetchResult.response true "" (some [fcText])) =
      ([[demoUserMsg], [demoUserMsg, pendingMessage "r1" 0 fcText],
        [demoUserMsg, parsedMessage "r1" 0 timeCall]],
       GsrOutcome.success (some (pendingMessage "r1" 0 fcText))) := by
    simp only [getStreamedResponse, hpc1, hm1, if_true, hp]
    rfl
  have g2 : ∀ req1 : OpenAIChatRequest,
      getStreamedResponse parse "r2" 1 noCancel demoStoreFC req1
        (FetchResult.response true "" (some ["It is noon."])) =
      ([req1.messages, req1.messages ++ [plainMessage "r2" 1 "It is noon."]],
       GsrOutcome.success (some (plainMessage "r2" 1 "It is noon."))) := by
    intro req1
    have hpc2 : processChunks req1.messages "r2" 1 noCancel ["It is noon."] =
        ([req1.messages ++ [plainMessage "r2" 1 "It is noon."]], "It is noon.",
         some (plainMessage "r2" 1 "It is noon.")) := by
      show processChunksAux req1.messages "r2" 1 (fun _ => false)
          ["It is noon."] 0 "" none = _
      rw [processChunksAux_no_cancel]
      rfl
    have hm2 : jsStartsWith "It is noon." functionCallMarker = false := by decide
    simp only [getStreamedResponse, hpc2, hm2, if_true]
    rfl
  have hl1 : ([[demoUserMsg], [demoUserMsg, pendingMessage "r1" 0 fcText],
      [demoUserMsg, parsedMessage "r1" 0 timeCall]] : List (List Message)).getLastD
        ([] : List Message) = demoStoreFC := by decide
  have hl2 : demoStoreFC.getLast? = some (parsedMessage "r1" 0 timeCall) := by decide
  simp only [chatLoop, fcEnv, plainEnv]
  rw [g1]
  dsimp only
  rw [hl1, hl2]
  dsimp only [parsedMessage]
  rw [g2]
  dsimp only
  simp only [List.getLastD_cons, List.getLastD_nil, List.getLast?_concat]
  dsimp only [plainMessage]
  simp [demoStoreFC, parsedMessage]

/-- Witness for C6 with the repository-shaped `get_current_time` handler and
a parse oracle agreeing with `JSON.parse` on the round-trip text. -/
theorem c6_function_call_round_trip_witness :
    chatLoop demoParse (some demoHandler) [fcEnv, plainEnv] demoReq [] =
      { requests := [demoReq, demoHandler timeCall { demoReq with messages := demoStoreFC }],
        states := [[demoUserMsg],
                   [demoUserMsg, pendingMessage "r1" 0 fcText],
                   demoStoreFC,
                   (demoHandler timeCall { demoReq with messages := demoStoreFC }).messages,
                   (demoHandler timeCall { demoReq with messages := demoStoreFC }).messages ++
                     [plainMessage "r2" 1 "It is noon."]],
        handlerCalls := [(timeCall, { demoReq with messages := demoStoreFC })],
        outcome := LoopOutcome.finished "It is noon." } :=
  c6_function_call_round_trip demoParse demoHandler (by decide)

end Chat
